import Mathlib

/-!
Verification of the Atlas multi-pipeline block indexer (permaweb/atlas).

This file shallowly embeds the pure decision logic of the indexer's Rust
sources and proves properties of the embedded definitions.  Each definition
carries a comment naming the Rust item it was translated from.  Network and
database effects are abstracted: a worker iteration is modelled as a pure
function from the outcome of its gateway fetch to the updated worker state
plus the lists of rows it writes; `rust_decimal::Decimal` arithmetic is
modelled over `ℚ` (its 96-bit mantissa rounding at extreme magnitudes is out
of scope); `u64`/`u32` additions that can wrap are modelled with an explicit
`% 2 ^ 64` / saturation where the source uses wrapping or saturating
operations.
-/

namespace Atlas

/-! ### String helpers mirroring the Rust `str` operations used by the code -/

/-- Substring test: Rust's `str::contains(pat)` for a literal pattern. -/
def strContains (s pat : String) : Bool :=
  s.data.tails.any fun suf => pat.data.isPrefixOf suf

/-- ASCII lower-casing of one character, as Rust's `char::to_ascii_lowercase`. -/
def asciiLowerChar (c : Char) : Char :=
  if 'A' ≤ c ∧ c ≤ 'Z' then Char.ofNat (c.toNat + 32) else c

/-- ASCII lower-casing of a string, as Rust's `str::to_ascii_lowercase`. -/
def asciiLower (s : String) : String :=
  ⟨s.data.map asciiLowerChar⟩

/-- ASCII case-insensitive equality, as Rust's `str::eq_ignore_ascii_case`. -/
def eqIgnoreAsciiCase (a b : String) : Bool :=
  asciiLower a = asciiLower b

/-- Splitting a character list on every occurrence of a non-empty separator,
as Rust's `str::split(pattern)`.  The `Nat` argument is fuel bounding the
remaining length, so the recursion is structural. -/
def splitOnCharsAux (sep : List Char) : Nat → List Char → List Char → List (List Char)
  | 0, l, acc => [acc.reverse ++ l]
  | _ + 1, [], acc => [acc.reverse]
  | fuel + 1, c :: rest, acc =>
    if sep.isPrefixOf (c :: rest) then
      acc.reverse :: splitOnCharsAux sep fuel ((c :: rest).drop sep.length) []
    else
      splitOnCharsAux sep fuel rest (c :: acc)

/-- Rust's `str::split(sep)` collected into a list of pieces. -/
def rustSplit (s sep : String) : List String :=
  (splitOnCharsAux sep.data (s.data.length + 1) s.data []).map fun cs => ⟨cs⟩

/-- First whitespace-separated token of a string
(Rust `split_whitespace().next().unwrap_or("")`). -/
def firstWhitespaceToken (s : String) : String :=
  ⟨(s.data.dropWhile Char.isWhitespace).takeWhile fun c => ¬ c.isWhitespace⟩

/-- Rust `str::parse::<u16>()`: optional leading `+`, decimal digits only,
value below `2 ^ 16`; anything else is a parse error (`none`). -/
def parseU16 (s : String) : Option Nat :=
  let t := match s.data with
    | '+' :: rest => rest
    | l => l
  if t.isEmpty then none
  else if t.all Char.isDigit then
    let n := t.foldl (fun acc c => acc * 10 + (c.toNat - 48)) 0
    if n < 65536 then some n else none
  else none

/-! ### Error classification (crates/indexer/src/indexer.rs, lines 675-703) -/

/-- `is_empty_block_error`: the error message contains
`"no ao message id found"`. -/
def is_empty_block_error (msg : String) : Bool :=
  strContains msg "no ao message id found"

/-- `is_rate_limit_error`: the error message contains `"http status: 429"`. -/
def is_rate_limit_error (msg : String) : Bool :=
  strContains msg "http status: 429"

/-- `is_timeout_error`: the ASCII-lowercased message contains `"timeout"` or
`"timed out"`. -/
def is_timeout_error (msg : String) : Bool :=
  strContains (asciiLower msg) "timeout" || strContains (asciiLower msg) "timed out"

/-- `is_retryable_http_error`: take the text after `"http status: "`, its first
whitespace token, parse it as `u16`, and test membership in `500..600`. -/
def is_retryable_http_error (msg : String) : Bool :=
  match (rustSplit msg "http status: ").get? 1 with
  | none => false
  | some statusPart =>
    match parseU16 (firstWhitespaceToken statusPart) with
    | none => false
    | some status => decide (500 ≤ status ∧ status < 600)

/-- `is_not_found_error`: the error message contains `"http status: 404"`. -/
def is_not_found_error (msg : String) : Bool :=
  strContains msg "http status: 404"

/-! ### Gateway scan post-processing
(crates/common/src/mainnet.rs `scan_arweave_block_for_msgs` and
crates/common/src/ao_token.rs `scan_arweave_block_for_ao_token_msgs`).
The HTTP and JSON layers are abstracted: the models start from the list of
successfully parsed message nodes of the response. -/

/-- One tag of a message (`Tag { key, value }`). -/
structure Tag where
  key : String
  value : String
deriving DecidableEq

/-- Parsed message metadata shared by the mainnet and token scans
(`MainnetBlockMessagesMeta` / `AoTokenMessageMeta`). -/
structure MessageMeta where
  msg_id : String
  owner : String
  recipient : String
  block_height : Nat
  block_timestamp : Nat
  bundled_in : String
  data_size : String
  tags : List Tag
deriving DecidableEq

/-- A page of scanned messages (`MainnetBlockMessagesPage` /
`AoTokenMessagesPage`). -/
structure MessagesPage where
  mappings : List MessageMeta
  has_next_page : Bool
  end_cursor : Option String
deriving DecidableEq

/-- The error message raised by `scan_arweave_block_for_msgs` when the block
holds no parsed message (mainnet.rs line 227). -/
def emptyBlockErrMsg : String :=
  "error: no ao message id found for the given query"

/-- Tail of `scan_arweave_block_for_msgs` (mainnet.rs lines 226-233): an empty
node list is turned into the empty-block error, a non-empty one into a page. -/
def mainnetScanResult (metas : List MessageMeta) (hasNext : Bool)
    (endCursor : Option String) : Except String MessagesPage :=
  if metas.isEmpty then .error emptyBlockErrMsg
  else .ok ⟨metas, hasNext, endCursor⟩

/-- `has_action_transfer` (ao_token.rs lines 221-225): some tag has key
`action` and value `transfer`, both compared ASCII case-insensitively. -/
def has_action_transfer (tags : List Tag) : Bool :=
  tags.any fun tag =>
    eqIgnoreAsciiCase tag.key "action" && eqIgnoreAsciiCase tag.value "transfer"

/-- The two token sub-queries (`AoTokenQuery`). -/
inductive AoTokenQuery
  | Transfer
  | Process
deriving DecidableEq

/-- Client-side node filter of `scan_arweave_block_for_ao_token_msgs`
(ao_token.rs lines 170-172): a Transfer-query node is kept only when
`has_action_transfer` holds of its tags; the Process query keeps every node. -/
def tokenScanKeep (query : AoTokenQuery) (meta : MessageMeta) : Bool :=
  match query with
  | .Transfer => has_action_transfer meta.tags
  | .Process => true

/-- Tail of `scan_arweave_block_for_ao_token_msgs` (ao_token.rs lines
133-219): the parsed nodes are filtered client-side and always returned as a
page; a block with zero edges yields `Ok` with an empty `mappings` list,
never the empty-block error. -/
def tokenScanResult (query : AoTokenQuery) (metas : List MessageMeta)
    (hasNext : Bool) (endCursor : Option String) : MessagesPage :=
  ⟨metas.filter (tokenScanKeep query), hasNext, endCursor⟩

/-- The GraphQL filter clause the Transfer sub-query sends to the gateway
(ao_token.rs lines 43-48), with the constant authority and token process ids
inlined. -/
def transferFilterClause : String :=
  "owners: [\"fcoN_xJeisVsPXA-trzVAuIiqO3ydLQxM-L4XbrQKzY\"]\n    recipients: [\"0syT13r0s0tgPmIed95bJnuSqaD29HQNN8D3ElLSrsc\"]\n    tags: [\x7b name: \"Action\", values: [\"Transfer\"] \x7d]"

/-! ### Block-ingestion worker state machine
(crates/indexer/src/indexer.rs `run_mainnet_worker`, `run_token_worker`). -/

/-- `ARWEAVE_TIP_SAFE_GAP` (indexer.rs line 45). -/
def ARWEAVE_TIP_SAFE_GAP : Nat := 3

/-- Saturating `u32` increment, as Rust's `height.saturating_add(1)`. -/
def u32SatSucc (h : Nat) : Nat :=
  min (h + 1) 4294967295

/-- Persisted cursor state of a mainnet protocol stream
(`MainnetBlockStateRow`, without the timestamp and the constant stream
label). -/
structure CursorState where
  last_complete_height : Nat
  last_cursor : String
deriving DecidableEq

/-- In-memory position of a worker: current height and optional page cursor. -/
structure WorkerPos where
  height : Nat
  cursor : Option String
deriving DecidableEq

/-- Resume logic of `run_mainnet_worker` (indexer.rs lines 432-441): height
starts at the configured genesis, is raised to
`max last_complete_height start` when a state row exists, keeps the stored
cursor when it is non-empty and otherwise advances one height (saturating). -/
def mainnetResume (start : Nat) (state : Option CursorState) : WorkerPos :=
  match state with
  | none => ⟨start, none⟩
  | some s =>
    let h := max s.last_complete_height start
    if s.last_cursor ≠ "" then ⟨h, some s.last_cursor⟩
    else ⟨u32SatSucc h, none⟩

/-- Resume logic of `run_token_worker` (indexer.rs lines 552-558): always
`max last_complete_height start` plus one (saturating); token streams persist
no cursor. -/
def tokenResume (start : Nat) (lastCompleteHeight : Option Nat) : Nat :=
  match lastCompleteHeight with
  | none => start
  | some h => u32SatSucc (max h start)

/-- The tip guard (indexer.rs lines 445-458): the worker waits while
`height + ARWEAVE_TIP_SAFE_GAP > network_tip`. -/
def tipGuardWaits (height tip : Nat) : Bool :=
  decide (height + ARWEAVE_TIP_SAFE_GAP > tip)

/-- How a worker iteration reacts to the outcome of its page fetch. -/
inductive StepKind
  /-- Commit an empty cursor row and advance past the empty height. -/
  | advanceEmpty
  /-- Sleep the given number of seconds, then retry the same height/cursor. -/
  | retry (seconds : Nat)
  /-- Return the error: the worker terminates and the supervisor logs it. -/
  | surface
deriving DecidableEq

/-- Error dispatch of `run_mainnet_worker` (indexer.rs lines 459-485): an
empty-block error commits and advances; every other fetch error is retried in
place, after 5 s for HTTP 429 and after 1 s otherwise.  No fetch error is
ever surfaced. -/
def mainnetFetchErrorStep (msg : String) : StepKind :=
  if is_empty_block_error msg then .advanceEmpty
  else if is_rate_limit_error msg then .retry 5
  else .retry 1

/-- Error dispatch of `run_token_worker` (indexer.rs lines 578-624): HTTP
429, timeouts, HTTP 5xx and HTTP 404 sleep 300 s and retry; every other
error is returned, terminating the worker. -/
def tokenFetchErrorStep (msg : String) : StepKind :=
  if is_rate_limit_error msg || is_timeout_error msg
      || is_retryable_http_error msg || is_not_found_error msg then
    .retry 300
  else .surface

/-- A message row written by the mainnet worker (`MainnetMessageRow`, without
the ingest timestamp and constant stream label). -/
structure MessageRow where
  block_height : Nat
  block_timestamp : Nat
  msg_id : String
  owner : String
  recipient : String
  bundled_in : String
  data_size : String
deriving DecidableEq

/-- A tag row written by the mainnet worker (`MainnetMessageTagRow`). -/
structure MessageTagRow where
  block_height : Nat
  msg_id : String
  tag_key : String
  tag_value : String
deriving DecidableEq

/-- Everything one iteration of the mainnet worker loop produces. -/
structure MainnetStepOut where
  pos : WorkerPos
  stateCommits : List CursorState
  msgRows : List MessageRow
  tagRows : List MessageTagRow
deriving DecidableEq

/-- The message rows of a page, in page order (indexer.rs lines 488-512). -/
def pageMsgRows (metas : List MessageMeta) : List MessageRow :=
  metas.map fun m =>
    ⟨m.block_height, m.block_timestamp, m.msg_id, m.owner, m.recipient,
      m.bundled_in, m.data_size⟩

/-- The tag rows of a page, in page order (indexer.rs lines 513-522). -/
def pageTagRows (metas : List MessageMeta) : List MessageTagRow :=
  metas.flatMap fun m =>
    m.tags.map fun t => ⟨m.block_height, m.msg_id, t.key, t.value⟩

/-- One iteration of `run_mainnet_worker`'s fetch/persist/advance loop
(indexer.rs lines 459-548), as a function of the fetch outcome.  On an
empty-block error the cursor is cleared, one `CursorState` row with the
current height and an empty cursor is committed, no message rows are written
and the height advances.  On any other error nothing is committed and the
position is unchanged.  On a page, messages then tags are written, the cursor
becomes the page's end cursor when it has a next page, the cursor row is
committed, and the height advances only when the new cursor is empty. -/
def mainnetStep (pos : WorkerPos) (fetched : Except String MessagesPage) :
    MainnetStepOut :=
  match fetched with
  | .error msg =>
    if is_empty_block_error msg then
      ⟨⟨u32SatSucc pos.height, none⟩, [⟨pos.height, ""⟩], [], []⟩
    else
      ⟨pos, [], [], []⟩
  | .ok page =>
    let cursor := if page.has_next_page then page.end_cursor else none
    let height := if cursor.isNone then u32SatSucc pos.height else pos.height
    ⟨⟨height, cursor⟩, [⟨pos.height, cursor.getD ""⟩],
      pageMsgRows page.mappings, pageTagRows page.mappings⟩

/-! ### FLP projects (crates/common/src/projects.rs) -/

/-- `PI_PID` (projects.rs line 4). -/
def PI_PID : String := "4hXj_E-5fAKmo4E8KjgQvuDJKAFk9P2grhycVmISDLs"

/-- `Project::is_flp_project` (projects.rs lines 97-117): membership in the
fixed list of sixteen FLP process ids. -/
def is_flp_project (pid : String) : Bool :=
  pid = PI_PID
    || pid = "Qz3n2P-EiWNoWsvk7gKLtrV9ChvSXQ5HJPgPklWEgQ0"
    || pid = "jHZBsy0SalZ6I5BmYKRUt0AtLsn-FCFhqf_n6AgwGlc"
    || pid = "UcBPqkaVI7W4I_YMznrt2JUoyc_7TScCdZWOOSBvMSU"
    || pid = "t7_efxAUDftIEl9QfBi0KYSz8uHpMS81xfD3eqd89rQ"
    || pid = "11T2aA8M-ZcoEnDqG37Kf2dzEGY2r4_CyYeiN_1VTvU"
    || pid = "NXZjrPKh-fQx8BUCG_OXBUtB4Ix8Xf0gbUtREFoWQ2Q"
    || pid = "oIuISObCStjTFMnV3CrrERRb9KTDGN4507-ARysYzLE"
    || pid = "N0L1lUC-35wgyXK31psEHRjySjQMWPs_vHtTas5BJa8"
    || pid = "nYHhoSEtelyL3nQ6_CFoOVnZfnz2VHK-nEez962YMm8"
    || pid = "oTkFjTiRUKGp-Lk1YduBDTRRc7j1dM0W_bTgp5Aach8"
    || pid = "_L_GMvgax750A8oORtNPetcmq5fog3K6WtvY4PFpipo"
    || pid = "rW7h9J9jE2Xp36y4SKn2HgZaOuzRmbMfBRPwrFFifHE"
    || pid = "3eZ6_ry6FD9CB58ImCQs6Qx_rJdDUGhz-D2W1AqzHD8"
    || pid = "8TRsYFzbhp97Er5bFJL4Xofa4Txv4fv8S0szEscqopU"
    || pid = "LnFIQUwAdMZ9LEWlfQ7VZ3zJOW-0p8Irc_2gAVshs3w"

/-- Modelled from the spec: `INTERNAL_PI_PID`, the sentinel PI-project
identifier returned by `get_user_last_delegation_txid` when a wallet has no
`Set-Delegation` message.  Its definition in `projects.rs` is not part of the
provided sources; the spec only requires it to be the fixed PI-project
identifier, so it is identified with `PI_PID`.  Every use compares against
the same constant, so the proofs do not depend on its exact text. -/
def INTERNAL_PI_PID : String := PI_PID

/-! ### Delegation preference resolution
(crates/common/src/delegation.rs `get_user_last_delegation_txid`,
crates/flp/src/wallet.rs `get_wallet_delegations`,
crates/flp/src/types.rs). -/

/-- `MAX_FACTOR` (types.rs line 4). -/
def MAX_FACTOR : Nat := 10000

/-- One delegation preference entry (`WalletDelegations`). -/
structure WalletDelegations where
  wallet_to : String
  factor : Nat
deriving DecidableEq

/-- A parsed delegation preference payload (`DelegationsRes`). -/
structure DelegationsRes where
  key : Option String
  last_update : Option Nat
  total_factor : Option Nat
  wallet : Option String
  delegation_prefs : List WalletDelegations
  delegation_msg_id : Option String
deriving DecidableEq

/-- `DelegationsRes::pi_default` (types.rs lines 52-66): the synthetic
"100 % to PI" preference with a single entry of factor `MAX_FACTOR`. -/
def DelegationsRes.pi_default (address : String) : DelegationsRes where
  key := some ("base_" ++ address)
  last_update := none
  total_factor := some MAX_FACTOR
  wallet := some address
  delegation_prefs := [⟨INTERNAL_PI_PID, MAX_FACTOR⟩]
  delegation_msg_id := some "not found"

/-- `get_user_last_delegation_txid` (delegation.rs lines 122-157), starting
from the parsed `(id, height)` nodes of the gateway response (`none` models a
response without an `edges` array; edges whose node or id is missing are
already dropped, and a missing height is already defaulted to 0, matching the
Rust parse loop).  An empty candidate set yields the one-element sentinel
list; otherwise exactly the candidates tied at the maximum height remain. -/
def get_user_last_delegation_txid (edges : Option (List (String × Nat))) :
    List String :=
  match edges with
  | none => [INTERNAL_PI_PID]
  | some nodes =>
    if nodes.isEmpty then [INTERNAL_PI_PID]
    else
      let maxHeight := (nodes.map Prod.snd).foldl max 0
      let ids := (nodes.filter fun n => n.2 = maxHeight).map Prod.fst
      if ids.isEmpty then [INTERNAL_PI_PID] else ids

/-- The sum of the preference factors, as the Rust u32 iterator sum
(wrapping, hence the explicit modulus). -/
def sumFactors (prefs : List WalletDelegations) : Nat :=
  ((prefs.map WalletDelegations.factor).sum) % 4294967296

/-- The effective total factor used by `get_wallet_delegations` (wallet.rs
lines 21-23): the payload's `total_factor` when present, else the sum of its
preference factors. -/
def effectiveTotalFactor (res : DelegationsRes) : Nat :=
  res.total_factor.getD (sumFactors res.delegation_prefs)

/-- The candidate loop of `get_wallet_delegations` (wallet.rs lines 13-31).
`resolve` abstracts the composite of `get_user_delegation_txid`,
`download_tx_data` and the JSON parse for one candidate batch id; each of the
three Rust steps propagates its error with `?`, so any failure of the
composite aborts the whole resolution immediately.  A candidate equal to the
sentinel returns the PI default; a candidate whose effective total factor
reaches `MAX_FACTOR` is returned at once; otherwise it becomes the fallback
and the loop continues. -/
def resolveCandidates (address : String)
    (resolve : String → Except String DelegationsRes) :
    List String → Option DelegationsRes → Except String DelegationsRes
  | [], fallback =>
    match fallback with
    | some res => .ok res
    | none => .error "error: no delegation preferences found"
  | id :: rest, _fallback =>
    if id = INTERNAL_PI_PID then .ok (DelegationsRes.pi_default address)
    else
      match resolve id with
      | .error e => .error e
      | .ok res =>
        let res' := { res with delegation_msg_id := some id }
        if MAX_FACTOR ≤ effectiveTotalFactor res then .ok res'
        else resolveCandidates address resolve rest (some res')

/-- `get_wallet_delegations` (wallet.rs lines 11-32): the first-hop query
result (`firstHop`, whose error is propagated by the leading `?`) yields the
candidate list, which the candidate loop then processes with an empty
fallback. -/
def get_wallet_delegations (address : String)
    (firstHop : Except String (Option (List (String × Nat))))
    (resolve : String → Except String DelegationsRes) :
    Except String DelegationsRes :=
  match firstHop with
  | .error e => .error e
  | .ok edges =>
    resolveCandidates address resolve (get_user_last_delegation_txid edges) none

/-! ### Snapshot cycle arithmetic and row building
(crates/indexer/src/indexer.rs `Indexer::index_ticker`, `normalize_amount`,
`ticker_scale`, `delegated_amount`).  `rust_decimal::Decimal` values are
modelled as `ℚ`; `Decimal::normalize` only strips trailing zeros and is a
value-level identity.  `Decimal::from_str` is abstracted by a `parseDec`
parameter returning `Option ℚ`. -/

/-- `ticker_scale` (indexer.rs lines 363-369): the three known oracle tickers
are 18-decimal, anything else scales by one. -/
def ticker_scale (ticker : String) : ℚ :=
  let key := asciiLower ticker
  if key = "usds" ∨ key = "dai" ∨ key = "steth" then 1000000000000000000 else 1

/-- `normalize_amount` (indexer.rs lines 357-360): parse the CSV amount
string as a decimal, divide by the ticker scale; a parse failure yields
`none`. -/
def normalize_amount (parseDec : String → Option ℚ) (amount ticker : String) :
    Option ℚ :=
  (parseDec amount).map fun amt => amt / ticker_scale ticker

/-- `delegated_amount` (indexer.rs lines 371-373). -/
def delegated_amount (amount : ℚ) (factor : Nat) : ℚ :=
  amount * (factor : ℚ) / (MAX_FACTOR : ℚ)

/-- One CSV balance-sheet record (`SetBalancesData`, types.rs lines 33-38). -/
structure SetBalancesData where
  eoa : String
  amount : String
  ar_address : String
deriving DecidableEq

/-- A stored holder balance (`WalletBalanceRow`, without the cycle timestamp
and snapshot tx id; the stored decimal strings are modelled by their
values). -/
structure WalletBalanceRow where
  ticker : String
  wallet : String
  eoa : String
  amount : ℚ
  ar_balance : ℚ
deriving DecidableEq

/-- A stored raw delegation payload (`WalletDelegationRow`; the serialized
JSON string is modelled by the payload value). -/
structure WalletDelegationRow where
  wallet : String
  payload : DelegationsRes
deriving DecidableEq

/-- A stored delegation position (`FlpPositionRow`, without the cycle
timestamp). -/
structure FlpPositionRow where
  ticker : String
  wallet : String
  eoa : String
  project : String
  factor : Nat
  amount : ℚ
  ar_amount : ℚ
deriving DecidableEq

/-- The inner preference loop of `Indexer::index_ticker` (indexer.rs lines
292-312): for each preference pointing at a known FLP project, compute the
two delegated slices and keep the position unless both are zero. -/
def positionsFor (ticker wallet eoa : String) (amount ar_balance : ℚ)
    (prefs : List WalletDelegations) : List FlpPositionRow :=
  prefs.filterMap fun pref =>
    if is_flp_project pref.wallet_to then
      let delegated := delegated_amount amount pref.factor
      let delegated_ar := delegated_amount ar_balance pref.factor
      if delegated = 0 ∧ delegated_ar = 0 then none
      else some ⟨ticker, wallet, eoa, pref.wallet_to, pref.factor,
        delegated, delegated_ar⟩
    else none

/-- The holder loop of `Indexer::index_ticker` (indexer.rs lines 272-313):
each `(entry, delegation, ar_balance)` triple whose amount parses contributes
one balance row, one delegation row and its position rows; a triple whose
amount fails to parse is skipped entirely (`continue`). -/
def processPairs (parseDec : String → Option ℚ) (ticker : String) :
    List (SetBalancesData × DelegationsRes × ℚ) →
    List WalletBalanceRow × List WalletDelegationRow × List FlpPositionRow
  | [] => ([], [], [])
  | (entry, delegation, ar_balance) :: rest =>
    match normalize_amount parseDec entry.amount ticker with
    | none => processPairs parseDec ticker rest
    | some amount_dec =>
      let out := processPairs parseDec ticker rest
      (⟨ticker, entry.ar_address, entry.eoa, amount_dec, ar_balance⟩ :: out.1,
        ⟨entry.ar_address, delegation⟩ :: out.2.1,
        positionsFor ticker entry.ar_address entry.eoa amount_dec ar_balance
            delegation.delegation_prefs ++ out.2.2)

/-! ### Explorer materializer rolling counters
(crates/indexer/src/indexer.rs `Indexer::rebuild_mainnet_explorer` and
`run_mainnet_explorer_tail`). -/

/-- Wrapping `u64` addition (Rust release-mode `+=` on `u64`). -/
def addU64 (a b : Nat) : Nat :=
  (a + b) % 18446744073709551616

/-- One aggregated per-block metrics row (`MainnetBlockMetricRow`, timestamps
as plain naturals). -/
structure BlockMetric where
  ts : Nat
  height : Nat
  tx_count : Nat
  eval_count : Nat
  transfer_count : Nat
  new_process_count : Nat
  new_module_count : Nat
  active_users : Nat
  active_processes : Nat
deriving DecidableEq

/-- One derived explorer row (`MainnetExplorerRow`). -/
structure ExplorerRow where
  ts : Nat
  height : Nat
  tx_count : Nat
  eval_count : Nat
  transfer_count : Nat
  new_process_count : Nat
  new_module_count : Nat
  active_users : Nat
  active_processes : Nat
  tx_count_rolling : Nat
  processes_rolling : Nat
  modules_rolling : Nat
deriving DecidableEq

/-- The row-building loop shared by `rebuild_mainnet_explorer` (indexer.rs
lines 183-216, seed counters zero) and `run_mainnet_explorer_tail` (lines
777-807, seed counters from the latest row): each metric row extends the
three running counters and is emitted with them.  Page boundaries do not
affect the counters, so one list models the whole run's metric sequence. -/
def rollRows (tx_roll proc_roll mod_roll : Nat) :
    List BlockMetric → List ExplorerRow
  | [] => []
  | m :: rest =>
    let tx_roll' := addU64 tx_roll m.tx_count
    let proc_roll' := addU64 proc_roll m.new_process_count
    let mod_roll' := addU64 mod_roll m.new_module_count
    ⟨m.ts, m.height, m.tx_count, m.eval_count, m.transfer_count,
        m.new_process_count, m.new_module_count, m.active_users,
        m.active_processes, tx_roll', proc_roll', mod_roll'⟩ ::
      rollRows tx_roll' proc_roll' mod_roll' rest

/-! ### Global stats indexer (crates/explorer/src/lib.rs,
crates/explorer/src/update_stats_gap.rs, and
`Indexer::spawn_explorer_bridge` in crates/indexer/src/indexer.rs). -/

/-- Per-block statistics of the global stats indexer (`BlockStats`). -/
structure BlockStats where
  height : Nat
  timestamp : Nat
  tx_count : Nat
  eval_count : Nat
  transfer_count : Nat
  new_process_count : Nat
  new_module_count : Nat
  active_users : Nat
  active_processes : Nat
  tx_count_rolling : Nat
  processes_rolling : Nat
  modules_rolling : Nat
deriving DecidableEq

/-- `LATEST_AGG_STATS_SET` (update_stats_gap.rs lines 21-36), the hard-coded
checkpoint the stats indexer is seeded from when no row is stored. -/
def LATEST_AGG_STATS_SET : BlockStats where
  height := 1802758
  timestamp := 1764114408
  tx_count := 125657
  eval_count := 69
  transfer_count := 2902
  new_process_count := 3
  new_module_count := 0
  active_users := 87
  active_processes := 883
  tx_count_rolling := 2771411066
  processes_rolling := 540463
  modules_rolling := 10157

/-- Seed selection of `Indexer::spawn_explorer_bridge` (indexer.rs lines
100-105): the latest stored explorer row when present, else the hard-coded
checkpoint. -/
def explorerSeed (latest : Option BlockStats) : BlockStats :=
  latest.getD LATEST_AGG_STATS_SET

/-- `finalize_block_stats` (lib.rs lines 308-316): back-fill a zero timestamp
from the separate block-timestamp request (`tsOf`) and extend the three
rolling counters from the previous stats. -/
def finalize_block_stats (stats last : BlockStats) (tsOf : Nat → Nat) :
    BlockStats :=
  { stats with
    timestamp := if stats.timestamp = 0 then tsOf stats.height else stats.timestamp
    tx_count_rolling := addU64 last.tx_count_rolling stats.tx_count
    processes_rolling := addU64 last.processes_rolling stats.new_process_count
    modules_rolling := addU64 last.modules_rolling stats.new_module_count }

/-- `empty_block_stats` (lib.rs lines 318-333): a row with zero base counters
whose rolling counters are carried over unchanged. -/
def empty_block_stats (height timestamp : Nat) (last : BlockStats) :
    BlockStats where
  height := height
  timestamp := timestamp
  tx_count := 0
  eval_count := 0
  transfer_count := 0
  new_process_count := 0
  new_module_count := 0
  active_users := 0
  active_processes := 0
  tx_count_rolling := last.tx_count_rolling
  processes_rolling := last.processes_rolling
  modules_rolling := last.modules_rolling

/-- `build_block_stats` (lib.rs lines 297-306).  `agg` abstracts
`aggregate_block_full`'s search for the aggregated stats of exactly the
requested height (`none` when the block holds no matching message); `tsOf`
abstracts `fetch_block_timestamp`. -/
def build_block_stats (agg : Nat → Option BlockStats) (tsOf : Nat → Nat)
    (height : Nat) (last : BlockStats) : BlockStats :=
  match agg height with
  | some stats => finalize_block_stats stats last tsOf
  | none => empty_block_stats height (tsOf height) last

/-- One pass of the inner `while height <= tip` loop of
`run_stats_indexer_from` (lib.rs lines 196-211), emitting the handled stats
in order.  Starting at height `h` with previous stats `last`, the pass runs
for `n = tip + 1 - h` heights. -/
def runStatsPass (agg : Nat → Option BlockStats) (tsOf : Nat → Nat) :
    Nat → BlockStats → Nat → List BlockStats
  | _, _, 0 => []
  | h, last, n + 1 =>
    let stats := build_block_stats agg tsOf h last
    stats :: runStatsPass agg tsOf (h + 1) stats n

/-! ### Shared helper lemmas -/

/-- Wrapping `u64` addition is plain addition below the modulus. -/
theorem addU64_eq_add {a b : Nat} (h : a + b < 18446744073709551616) :
    addU64 a b = a + b :=
  Nat.mod_eq_of_lt h

/-- Saturating `u32` increment is plain increment below the bound. -/
theorem u32SatSucc_eq_succ {h : Nat} (hb : h + 1 < 4294967296) :
    u32SatSucc h = h + 1 := by
  unfold u32SatSucc
  omega

/-! ## C1 — error surfacing of the block-ingestion workers -/

/-- C1 counterexample.  The claim states that every block-ingestion worker
surfaces a page-fetch error that is neither EmptyBlock, HTTP 429, HTTP 5xx,
HTTP 404 nor a timeout.  `"connection reset by peer"` is such an error, yet
the mainnet worker's dispatch retries it after 1 s instead of surfacing it
(indexer.rs lines 473-483 have no surfacing branch at all), so the claim is
false for the mainnet workers. -/
theorem C1_counterexample :
    mainnetFetchErrorStep "connection reset by peer" = .retry 1 ∧
    mainnetFetchErrorStep "connection reset by peer" ≠ .surface ∧
    is_empty_block_error "connection reset by peer" = false ∧
    is_rate_limit_error "connection reset by peer" = false ∧
    is_retryable_http_error "connection reset by peer" = false ∧
    is_not_found_error "connection reset by peer" = false ∧
    is_timeout_error "connection reset by peer" = false := by
  refine ⟨?_, ?_, ?_, ?_, ?_, ?_, ?_⟩ <;> decide

/-- C1 amended: only the token workers surface a page-fetch error that is not
HTTP 429, not a timeout, not HTTP 5xx and not HTTP 404 (and terminate, their
peers running in separate spawned tasks); the mainnet workers never surface a
page-fetch error — they retry in place with a 1 s backoff (5 s for
HTTP 429) and advance only on the EmptyBlock error. -/
theorem C1_amended (msg : String) :
    (tokenFetchErrorStep msg = .surface ↔
      is_rate_limit_error msg = false ∧ is_timeout_error msg = false ∧
        is_retryable_http_error msg = false ∧ is_not_found_error msg = false) ∧
    mainnetFetchErrorStep msg ≠ .surface := by
  constructor
  · unfold tokenFetchErrorStep
    split
    · rename_i hcond
      simp only [Bool.or_eq_true] at hcond
      constructor
      · intro hs
        exact absurd hs (by simp)
      · rintro ⟨h1, h2, h3, h4⟩
        simp [h1, h2, h3, h4] at hcond
    · rename_i hcond
      simp only [Bool.or_eq_true, not_or, Bool.not_eq_true] at hcond
      obtain ⟨⟨⟨h1, h2⟩, h3⟩, h4⟩ := hcond
      exact ⟨fun _ => ⟨h1, h2, h3, h4⟩, fun _ => rfl⟩
  · unfold mainnetFetchErrorStep
    split
    · exact fun hs => StepKind.noConfusion hs
    · split <;> exact fun hs => StepKind.noConfusion hs

/-! ## C2 — no tip-regression clamp at Resume -/

/-- C2 counterexample.  The claim states that a stream whose persisted
`last_complete_height` exceeds the current tip is clamped down to
`max_indexed_height(stream_label)` with its cursor cleared.  No such clamp
exists: resuming from the persisted state `⟨100, "c"⟩` (with tip 50, a tip
regression) keeps height 100 and keeps the cursor, whatever the store's
maximum indexed height (40 here) is — indeed `mainnetResume` does not even
consult the tip, and no `max_indexed_height` query exists in the code. -/
theorem C2_counterexample :
    ¬ (100 > 50 → mainnetResume 10 (some ⟨100, "c"⟩) = ⟨40, none⟩) ∧
    mainnetResume 10 (some ⟨100, "c"⟩) = ⟨100, some "c"⟩ := by
  refine ⟨fun h => ?_, by decide⟩
  have := h (by decide)
  simp [mainnetResume, u32SatSucc] at this

/-- C2 amended: startup Resume performs no tip-regression clamp.  The
resumed height is determined solely by the persisted state and the configured
start height — it is never below `last_complete_height`, and the cursor is
cleared exactly when the stored cursor is empty, regardless of the tip.
When the persisted height exceeds the tip, the tip guard merely waits: it
holds the worker whenever `height + 3 > tip`, which covers every
tip-regression case. -/
theorem C2_amended (start : Nat) (state : CursorState) (tip : Nat)
    (hheight : state.last_complete_height < 4294967296) :
    state.last_complete_height ≤ (mainnetResume start (some state)).height ∧
    ((mainnetResume start (some state)).cursor = none ↔
      state.last_cursor = "") ∧
    (tip < state.last_complete_height →
      tipGuardWaits (mainnetResume start (some state)).height tip = true) := by
  obtain ⟨lch, lcur⟩ := state
  simp only [mainnetResume, tipGuardWaits, ARWEAVE_TIP_SAFE_GAP,
    decide_eq_true_eq] at *
  by_cases hc : lcur = "" <;>
    simp only [hc, ne_eq, not_true_eq_false, if_false, not_false_eq_true,
      if_true, u32SatSucc] <;>
    refine ⟨?_, by simp [hc], fun hreg => ?_⟩ <;>
    have hle := le_max_left lch start <;>
    omega

/-- C2 witness: the amended theorem applied to the concrete regression input
of the counterexample (persisted height 100, stored cursor `"c"`, tip 50). -/
theorem C2_witness :
    (100 : Nat) < 4294967296 ∧
    (100 ≤ (mainnetResume 10 (some ⟨100, "c"⟩)).height ∧
      ((mainnetResume 10 (some ⟨100, "c"⟩)).cursor = none ↔ ("c" : String) = "") ∧
      (50 < 100 →
        tipGuardWaits (mainnetResume 10 (some ⟨100, "c"⟩)).height 50 = true)) :=
  ⟨by decide, C2_amended 10 ⟨100, "c"⟩ 50 (by decide)⟩

/-! ## C5 — mid-block resume height -/

/-- C5 counterexample.  The claim states that a protocol-stream worker with a
non-empty persisted cursor sets its current height to `last_complete_height`.
With configured start 10 and persisted state `⟨5, "c"⟩` the code instead
resumes at `max last_complete_height start = 10 ≠ 5`
(indexer.rs line 435 takes `state.last_complete_height.max(start)`). -/
theorem C5_counterexample :
    (mainnetResume 10 (some ⟨5, "c"⟩)).height = 10 ∧ (10 : Nat) ≠ 5 := by
  refine ⟨by decide, by decide⟩

/-- C5 amended: with a persisted CursorState present, a protocol-stream
worker whose `last_cursor` is non-empty sets its current height to
`max last_complete_height start` (not `+ 1`), resuming mid-block with that
cursor; with an empty `last_cursor` it starts at
`max last_complete_height start` plus one (saturating at the `u32` bound). -/
theorem C5_amended (start : Nat) (state : CursorState) :
    (state.last_cursor ≠ "" →
      mainnetResume start (some state) =
        ⟨max state.last_complete_height start, some state.last_cursor⟩) ∧
    (state.last_cursor = "" →
      mainnetResume start (some state) =
        ⟨u32SatSucc (max state.last_complete_height start), none⟩) := by
  obtain ⟨lch, lcur⟩ := state
  constructor
  · intro hc
    have hc' : lcur ≠ "" := hc
    simp [mainnetResume, hc']
  · intro hc
    have hc' : lcur = "" := hc
    simp [mainnetResume, hc']

/-- C5 witness: the amended theorem at two concrete persisted states, one
with a non-empty cursor (height stays at 9) and one with an empty cursor
(height advances to 10). -/
theorem C5_witness :
    mainnetResume 3 (some ⟨9, "cur"⟩) = ⟨9, some "cur"⟩ ∧
    mainnetResume 3 (some ⟨9, ""⟩) = ⟨10, none⟩ :=
  ⟨(C5_amended 3 ⟨9, "cur"⟩).1 (by decide), (C5_amended 3 ⟨9, ""⟩).2 rfl⟩

/-! ## C4 — empty-block handling of the ingestion loop -/

/-- C4: when a page fetch at the current height fails with the EmptyBlock
error — which is exactly what `scan_arweave_block_for_msgs` produces when the
gateway response parses to zero messages — the worker clears its cursor,
commits exactly one cursor-state row with the current height and the empty
cursor, writes zero message rows and zero tag rows, and advances to the next
height.  (The token scan never raises the EmptyBlock error: a zero-edge
token response is an ordinary page with an empty `mappings` list, so the
claim is vacuous for token workers.) -/
theorem C4 (h : Nat) (c : Option String) (msg : String) (hasNext : Bool)
    (endCursor : Option String)
    (hmsg : is_empty_block_error msg = true) (hb : h + 1 < 4294967296) :
    mainnetStep ⟨h, c⟩ (.error msg) = ⟨⟨h + 1, none⟩, [⟨h, ""⟩], [], []⟩ ∧
    mainnetScanResult [] hasNext endCursor = .error emptyBlockErrMsg ∧
    is_empty_block_error emptyBlockErrMsg = true ∧
    tokenScanResult .Transfer [] hasNext endCursor =
      ⟨[], hasNext, endCursor⟩ := by
  refine ⟨?_, rfl, by decide, rfl⟩
  simp only [mainnetStep, hmsg, if_true, u32SatSucc_eq_succ hb]

/-- C4 witness: the EmptyBlock error string at height 1594019 with a stale
cursor; the step commits `⟨1594019, ""⟩` and moves to height 1594020. -/
theorem C4_witness :
    is_empty_block_error emptyBlockErrMsg = true ∧
    (1594019 : Nat) + 1 < 4294967296 ∧
    (mainnetStep ⟨1594019, some "stale"⟩ (.error emptyBlockErrMsg) =
        ⟨⟨1594019 + 1, none⟩, [⟨1594019, ""⟩], [], []⟩ ∧
      mainnetScanResult [] false none = .error emptyBlockErrMsg ∧
      is_empty_block_error emptyBlockErrMsg = true ∧
      tokenScanResult .Transfer [] false none = ⟨[], false, none⟩) :=
  ⟨by decide, by decide,
    C4 1594019 (some "stale") emptyBlockErrMsg false none (by decide) (by decide)⟩

/-! ## C9 — client-side Action=Transfer filter of the token stream -/

/-- C9: a message returned by the Transfer sub-query is kept exactly when it
carries a tag whose key is `action` and whose value is `transfer`, both
compared ASCII case-insensitively; the Process sub-query keeps every
message.  The Transfer sub-query's gateway filter clause already names
`Action` / `Transfer`, so the client-side filter is a second, redundant
gate that silently drops non-matching messages. -/
theorem C9 (metas : List MessageMeta) (m : MessageMeta) (hasNext : Bool)
    (endCursor : Option String) (tags : List Tag) :
    (m ∈ (tokenScanResult .Transfer metas hasNext endCursor).mappings ↔
      m ∈ metas ∧ has_action_transfer m.tags = true) ∧
    (tokenScanResult .Process metas hasNext endCursor).mappings = metas ∧
    (has_action_transfer tags = true ↔
      ∃ tag ∈ tags, eqIgnoreAsciiCase tag.key "action" = true ∧
        eqIgnoreAsciiCase tag.value "transfer" = true) ∧
    strContains transferFilterClause "Action" = true ∧
    strContains transferFilterClause "Transfer" = true := by
  refine ⟨?_, ?_, ?_, by decide, by decide⟩
  · simp [tokenScanResult, tokenScanKeep, List.mem_filter]
  · simp [tokenScanResult, tokenScanKeep]
  · simp [has_action_transfer, List.any_eq_true, Bool.and_eq_true]

/-! ## C10 — holders whose amount fails to parse are skipped entirely -/

/-- C10: a holder triple whose CSV amount string fails to parse as a decimal
contributes nothing — removing it from the batch leaves every produced
balance, delegation and position row unchanged, and all other holders are
processed normally. -/
theorem C10 (parseDec : String → Option ℚ) (ticker : String)
    (before after : List (SetBalancesData × DelegationsRes × ℚ))
    (bad : SetBalancesData × DelegationsRes × ℚ)
    (hbad : parseDec bad.1.amount = none) :
    processPairs parseDec ticker (before ++ bad :: after) =
      processPairs parseDec ticker (before ++ after) := by
  obtain ⟨entry, delegation, ar_balance⟩ := bad
  induction before with
  | nil =>
    simp [processPairs, normalize_amount, hbad]
  | cons head tail ih =>
    obtain ⟨e, d, a⟩ := head
    cases hna : normalize_amount parseDec e.amount ticker <;>
      simp [processPairs, hna, ih]

/-- C10 witness: a two-holder batch where the second holder's amount string
does not parse; the produced rows equal those of the batch without it. -/
theorem C10_witness :
    processPairs (fun s => if s = "7" then some (7 : ℚ) else none) "usds"
        ([(⟨"e1", "7", "w1"⟩, DelegationsRes.pi_default "w1", 0)] ++
          (⟨"e2", "oops", "w2"⟩, DelegationsRes.pi_default "w2", 0) :: []) =
      processPairs (fun s => if s = "7" then some (7 : ℚ) else none) "usds"
        ([(⟨"e1", "7", "w1"⟩, DelegationsRes.pi_default "w1", 0)] ++ []) :=
  C10 (fun s => if s = "7" then some (7 : ℚ) else none) "usds"
    [(⟨"e1", "7", "w1"⟩, DelegationsRes.pi_default "w1", 0)] []
    (⟨"e2", "oops", "w2"⟩, DelegationsRes.pi_default "w2", 0) (by decide)

/-! ## C6 — snapshot normalization and position arithmetic -/

/-- Evaluation of the ticker scale at the three known tickers. -/
theorem ticker_scale_known (ticker : String)
    (h : ticker = "usds" ∨ ticker = "dai" ∨ ticker = "steth") :
    ticker_scale ticker = 1000000000000000000 := by
  rcases h with h | h | h <;> subst h <;> rw [ticker_scale] <;>
    rw [if_pos (by decide)]

/-- C6: for the three known tickers the stored balance is the parsed raw
amount divided by `10 ^ 18`; for every preference pointing at a known FLP
project the delegated amounts are `amount × factor / MAX_FACTOR` and
`native × factor / MAX_FACTOR` with `MAX_FACTOR = 10000`; and a position row
is produced exactly when at least one of the two computed amounts is
nonzero. -/
theorem C6 (parseDec : String → Option ℚ) (amount ticker : String)
    (raw amount_dec ar_balance : ℚ) (prefs : List WalletDelegations)
    (row : FlpPositionRow) (wallet eoa : String)
    (hticker : ticker = "usds" ∨ ticker = "dai" ∨ ticker = "steth")
    (hparse : parseDec amount = some raw) :
    normalize_amount parseDec amount ticker =
      some (raw / 1000000000000000000) ∧
    MAX_FACTOR = 10000 ∧
    (row ∈ positionsFor ticker wallet eoa amount_dec ar_balance prefs ↔
      ∃ pref ∈ prefs, is_flp_project pref.wallet_to = true ∧
        ¬(amount_dec * (pref.factor : ℚ) / 10000 = 0 ∧
            ar_balance * (pref.factor : ℚ) / 10000 = 0) ∧
        row = ⟨ticker, wallet, eoa, pref.wallet_to, pref.factor,
          amount_dec * (pref.factor : ℚ) / 10000,
          ar_balance * (pref.factor : ℚ) / 10000⟩) := by
  have hcast : ((MAX_FACTOR : Nat) : ℚ) = 10000 := by
    rw [MAX_FACTOR]; norm_num
  refine ⟨?_, rfl, ?_⟩
  · rw [normalize_amount, hparse, Option.map_some', ticker_scale_known ticker hticker]
  · simp only [positionsFor, List.mem_filterMap, delegated_amount, hcast]
    constructor
    · rintro ⟨pref, hmem, hf⟩
      refine ⟨pref, hmem, ?_⟩
      by_cases hflp : is_flp_project pref.wallet_to = true
      · rw [if_pos hflp] at hf
        by_cases hz : amount_dec * (pref.factor : ℚ) / 10000 = 0 ∧
            ar_balance * (pref.factor : ℚ) / 10000 = 0
        · rw [if_pos hz] at hf
          exact absurd hf (by simp)
        · rw [if_neg hz] at hf
          exact ⟨hflp, hz, (Option.some_inj.mp hf).symm⟩
      · rw [if_neg hflp] at hf
        exact absurd hf (by simp)
    · rintro ⟨pref, hmem, hflp, hnz, hrow⟩
      exact ⟨pref, hmem, by rw [if_pos hflp, if_neg hnz, hrow]⟩

/-- C6 witness: ticker `usds`, raw amount `5 × 10 ^ 18` parsing to the
balance 5, and a single 100 % preference to the PI project with native
balance 0: the produced row carries `5 × 10000 / 10000` and
`0 × 10000 / 10000`. -/
theorem C6_witness :
    normalize_amount (fun _ => some 5000000000000000000) "x" "usds" =
      some ((5000000000000000000 : ℚ) / 1000000000000000000) ∧
    MAX_FACTOR = 10000 ∧
    (⟨"usds", "w", "e", PI_PID, 10000, 5 * ((10000 : Nat) : ℚ) / 10000,
        0 * ((10000 : Nat) : ℚ) / 10000⟩ ∈
        positionsFor "usds" "w" "e" 5 0 [⟨PI_PID, 10000⟩] ↔
      ∃ pref ∈ [(⟨PI_PID, 10000⟩ : WalletDelegations)],
        is_flp_project pref.wallet_to = true ∧
        ¬((5 : ℚ) * (pref.factor : ℚ) / 10000 = 0 ∧
            (0 : ℚ) * (pref.factor : ℚ) / 10000 = 0) ∧
        (⟨"usds", "w", "e", PI_PID, 10000, 5 * ((10000 : Nat) : ℚ) / 10000,
            0 * ((10000 : Nat) : ℚ) / 10000⟩ : FlpPositionRow) =
          ⟨"usds", "w", "e", pref.wallet_to, pref.factor,
            5 * (pref.factor : ℚ) / 10000, 0 * (pref.factor : ℚ) / 10000⟩) :=
  C6 (fun _ => some 5000000000000000000) "x" "usds" 5000000000000000000 5 0
    [⟨PI_PID, 10000⟩]
    ⟨"usds", "w", "e", PI_PID, 10000, 5 * ((10000 : Nat) : ℚ) / 10000,
      0 * ((10000 : Nat) : ℚ) / 10000⟩
    "w" "e" (Or.inl rfl) rfl

/-! ## C7 — rolling counters of the explorer rows -/

/-- The consecutive-row relation of the rolling counters: each rolling column
extends the previous row's by the current base column, hence never
decreases. -/
def RollStep (a b : ExplorerRow) : Prop :=
  b.tx_count_rolling = a.tx_count_rolling + b.tx_count ∧
  b.processes_rolling = a.processes_rolling + b.new_process_count ∧
  b.modules_rolling = a.modules_rolling + b.new_module_count ∧
  a.tx_count_rolling ≤ b.tx_count_rolling ∧
  a.processes_rolling ≤ b.processes_rolling ∧
  a.modules_rolling ≤ b.modules_rolling

/-- Every pair of consecutive rows produced by the explorer row-building loop
satisfies `RollStep`, provided the seeds plus the run's base-column totals
stay below the `u64` modulus. -/
theorem rollRows_chain (metrics : List BlockMetric) :
    ∀ txr pr mr : Nat,
    txr + (metrics.map BlockMetric.tx_count).sum < 18446744073709551616 →
    pr + (metrics.map BlockMetric.new_process_count).sum <
      18446744073709551616 →
    mr + (metrics.map BlockMetric.new_module_count).sum <
      18446744073709551616 →
    List.Chain' RollStep (rollRows txr pr mr metrics) := by
  induction metrics with
  | nil =>
    intro txr pr mr _ _ _
    simp [rollRows]
  | cons m rest ih =>
    intro txr pr mr htx hpr hmd
    simp only [List.map_cons, List.sum_cons] at htx hpr hmd
    cases rest with
    | nil => simp [rollRows]
    | cons m2 rest2 =>
      simp only [List.map_cons, List.sum_cons] at htx hpr hmd
      simp only [rollRows]
      apply List.Chain'.cons
      · refine ⟨?_, ?_, ?_, ?_, ?_, ?_⟩ <;> simp only [addU64] <;> omega
      · have h1 : addU64 txr m.tx_count +
            ((m2 :: rest2).map BlockMetric.tx_count).sum <
            18446744073709551616 := by
          simp only [addU64, List.map_cons, List.sum_cons]; omega
        have h2 : addU64 pr m.new_process_count +
            ((m2 :: rest2).map BlockMetric.new_process_count).sum <
            18446744073709551616 := by
          simp only [addU64, List.map_cons, List.sum_cons]; omega
        have h3 : addU64 mr m.new_module_count +
            ((m2 :: rest2).map BlockMetric.new_module_count).sum <
            18446744073709551616 := by
          simp only [addU64, List.map_cons, List.sum_cons]; omega
        exact ih (addU64 txr m.tx_count) (addU64 pr m.new_process_count)
          (addU64 mr m.new_module_count) h1 h2 h3

/-- C7: within one run of the explorer rebuild or tail loop (both instances
of `rollRows`, seeded with zeros resp. the latest stored row), every pair of
consecutive rows satisfies the rolling-sum equation for all three counters
and the counters are monotonically non-decreasing; and one step of the
global stats indexer's `finalize_block_stats` extends its three rolling
counters by the row's base counters likewise.  The overflow hypotheses
record that the `u64` accumulators do not wrap. -/
theorem C7 (tx_roll proc_roll mod_roll : Nat) (metrics : List BlockMetric)
    (stats last : BlockStats) (tsOf : Nat → Nat)
    (htx : tx_roll + (metrics.map BlockMetric.tx_count).sum <
      18446744073709551616)
    (hpr : proc_roll + (metrics.map BlockMetric.new_process_count).sum <
      18446744073709551616)
    (hmd : mod_roll + (metrics.map BlockMetric.new_module_count).sum <
      18446744073709551616)
    (hftx : last.tx_count_rolling + stats.tx_count < 18446744073709551616)
    (hfpr : last.processes_rolling + stats.new_process_count <
      18446744073709551616)
    (hfmd : last.modules_rolling + stats.new_module_count <
      18446744073709551616) :
    List.Chain' RollStep (rollRows tx_roll proc_roll mod_roll metrics) ∧
    (finalize_block_stats stats last tsOf).tx_count_rolling =
      last.tx_count_rolling + stats.tx_count ∧
    (finalize_block_stats stats last tsOf).processes_rolling =
      last.processes_rolling + stats.new_process_count ∧
    (finalize_block_stats stats last tsOf).modules_rolling =
      last.modules_rolling + stats.new_module_count ∧
    last.tx_count_rolling ≤
      (finalize_block_stats stats last tsOf).tx_count_rolling ∧
    last.processes_rolling ≤
      (finalize_block_stats stats last tsOf).processes_rolling ∧
    last.modules_rolling ≤
      (finalize_block_stats stats last tsOf).modules_rolling := by
  refine ⟨rollRows_chain metrics tx_roll proc_roll mod_roll htx hpr hmd,
    ?_, ?_, ?_, ?_, ?_, ?_⟩ <;>
    simp only [finalize_block_stats, addU64] <;> omega

/-- C7 witness: a two-block run seeded from the hard-coded checkpoint
counters, with 5/1/0 and 7/0/2 as base counters. -/
theorem C7_witness :
    List.Chain' RollStep
      (rollRows 2771411066 540463 10157
        [⟨11, 100, 5, 1, 1, 1, 0, 2, 2⟩, ⟨12, 101, 7, 0, 3, 0, 2, 3, 1⟩]) ∧
    (finalize_block_stats ⟨102, 13, 9, 0, 0, 4, 1, 1, 1, 0, 0, 0⟩
        ⟨101, 12, 7, 0, 3, 0, 2, 3, 1, 2771411078, 540464, 10159⟩
        (fun _ => 99)).tx_count_rolling = 2771411078 + 9 ∧
    (finalize_block_stats ⟨102, 13, 9, 0, 0, 4, 1, 1, 1, 0, 0, 0⟩
        ⟨101, 12, 7, 0, 3, 0, 2, 3, 1, 2771411078, 540464, 10159⟩
        (fun _ => 99)).processes_rolling = 540464 + 4 ∧
    (finalize_block_stats ⟨102, 13, 9, 0, 0, 4, 1, 1, 1, 0, 0, 0⟩
        ⟨101, 12, 7, 0, 3, 0, 2, 3, 1, 2771411078, 540464, 10159⟩
        (fun _ => 99)).modules_rolling = 10159 + 1 ∧
    2771411078 ≤ (finalize_block_stats ⟨102, 13, 9, 0, 0, 4, 1, 1, 1, 0, 0, 0⟩
        ⟨101, 12, 7, 0, 3, 0, 2, 3, 1, 2771411078, 540464, 10159⟩
        (fun _ => 99)).tx_count_rolling ∧
    540464 ≤ (finalize_block_stats ⟨102, 13, 9, 0, 0, 4, 1, 1, 1, 0, 0, 0⟩
        ⟨101, 12, 7, 0, 3, 0, 2, 3, 1, 2771411078, 540464, 10159⟩
        (fun _ => 99)).processes_rolling ∧
    10159 ≤ (finalize_block_stats ⟨102, 13, 9, 0, 0, 4, 1, 1, 1, 0, 0, 0⟩
        ⟨101, 12, 7, 0, 3, 0, 2, 3, 1, 2771411078, 540464, 10159⟩
        (fun _ => 99)).modules_rolling :=
  C7 2771411066 540463 10157
    [⟨11, 100, 5, 1, 1, 1, 0, 2, 2⟩, ⟨12, 101, 7, 0, 3, 0, 2, 3, 1⟩]
    ⟨102, 13, 9, 0, 0, 4, 1, 1, 1, 0, 0, 0⟩
    ⟨101, 12, 7, 0, 3, 0, 2, 3, 1, 2771411078, 540464, 10159⟩
    (fun _ => 99)
    (by decide) (by decide) (by decide) (by decide) (by decide) (by decide)

/-! ## C8 — seeding and per-height emission of the global stats indexer -/

/-- One pass of the stats-indexer loop emits exactly one stats row per
height, in order, starting right after the previous row's height. -/
theorem runStatsPass_heights (agg : Nat → Option BlockStats)
    (tsOf : Nat → Nat)
    (hagg : ∀ h s, agg h = some s → s.height = h) :
    ∀ (n h : Nat) (last : BlockStats),
      (runStatsPass agg tsOf h last n).map BlockStats.height =
        List.range' h n := by
  intro n
  induction n with
  | zero =>
    intro h last
    simp [runStatsPass]
  | succ k ih =>
    intro h last
    simp only [runStatsPass, List.map_cons]
    rw [ih, List.range'_succ]
    congr 1
    unfold build_block_stats
    cases hc : agg h with
    | none => rfl
    | some s => simp [finalize_block_stats, hagg h s hc]

/-- C8: the global stats indexer seeds from the latest stored explorer row
when one exists and otherwise from the hard-coded checkpoint (height 1802758,
`tx_count_rolling` 2771411066, `processes_rolling` 540463, `modules_rolling`
10157); one pass emits exactly one row per height from `seed.height + 1` up
to the tip; and a height whose block holds no matching message yields a row
with all base counters zero, rolling counters equal to the previous row's,
and the timestamp of the separate block-timestamp request. -/
theorem C8 (s : BlockStats) (agg : Nat → Option BlockStats)
    (tsOf : Nat → Nat) (seed : BlockStats) (tip emptyH : Nat)
    (lastRow : BlockStats)
    (hagg : ∀ h st, agg h = some st → st.height = h)
    (hempty : agg emptyH = none) :
    explorerSeed none = LATEST_AGG_STATS_SET ∧
    explorerSeed (some s) = s ∧
    LATEST_AGG_STATS_SET.height = 1802758 ∧
    LATEST_AGG_STATS_SET.tx_count_rolling = 2771411066 ∧
    LATEST_AGG_STATS_SET.processes_rolling = 540463 ∧
    LATEST_AGG_STATS_SET.modules_rolling = 10157 ∧
    (runStatsPass agg tsOf (seed.height + 1) seed
        (tip - seed.height)).map BlockStats.height =
      List.range' (seed.height + 1) (tip - seed.height) ∧
    build_block_stats agg tsOf emptyH lastRow =
      ⟨emptyH, tsOf emptyH, 0, 0, 0, 0, 0, 0, 0, lastRow.tx_count_rolling,
        lastRow.processes_rolling, lastRow.modules_rolling⟩ := by
  refine ⟨rfl, rfl, rfl, rfl, rfl, rfl,
    runStatsPass_heights agg tsOf hagg _ _ seed, ?_⟩
  unfold build_block_stats
  rw [hempty]
  rfl

/-- C8 witness: every block empty, seed the checkpoint, tip two blocks ahead:
the pass emits rows exactly for heights 1802759 and 1802760, and the empty
height 1802759 carries the checkpoint's rolling counters with the separately
fetched timestamp 7. -/
theorem C8_witness :
    explorerSeed none = LATEST_AGG_STATS_SET ∧
    explorerSeed (some LATEST_AGG_STATS_SET) = LATEST_AGG_STATS_SET ∧
    LATEST_AGG_STATS_SET.height = 1802758 ∧
    LATEST_AGG_STATS_SET.tx_count_rolling = 2771411066 ∧
    LATEST_AGG_STATS_SET.processes_rolling = 540463 ∧
    LATEST_AGG_STATS_SET.modules_rolling = 10157 ∧
    (runStatsPass (fun _ => none) (fun _ => 7)
        (LATEST_AGG_STATS_SET.height + 1) LATEST_AGG_STATS_SET
        (1802760 - LATEST_AGG_STATS_SET.height)).map BlockStats.height =
      List.range' (LATEST_AGG_STATS_SET.height + 1)
        (1802760 - LATEST_AGG_STATS_SET.height) ∧
    build_block_stats (fun _ => none) (fun _ => 7) 1802759
        LATEST_AGG_STATS_SET =
      ⟨1802759, 7, 0, 0, 0, 0, 0, 0, 0,
        LATEST_AGG_STATS_SET.tx_count_rolling,
        LATEST_AGG_STATS_SET.processes_rolling,
        LATEST_AGG_STATS_SET.modules_rolling⟩ :=
  C8 LATEST_AGG_STATS_SET (fun _ => none) (fun _ => 7) LATEST_AGG_STATS_SET
    1802760 1802759 LATEST_AGG_STATS_SET
    (fun _ _ hst => by simp at hst) rfl

/-! ## C3 — delegation-preference resolution -/

/-- The fold seed is below the fold of `max`. -/
theorem le_foldl_max (xs : List Nat) : ∀ a, a ≤ xs.foldl max a := by
  induction xs with
  | nil => intro a; simp
  | cons x xs ih =>
    intro a
    exact le_trans (le_max_left a x) (ih (max a x))

/-- Every element is below the fold of `max`. -/
theorem mem_le_foldl_max (xs : List Nat) : ∀ a b, b ∈ xs → b ≤ xs.foldl max a := by
  induction xs with
  | nil => intro a b h; cases h
  | cons x xs ih =>
    intro a b h
    rcases List.mem_cons.mp h with rfl | h
    · exact le_trans (le_max_right a b) (le_foldl_max xs (max a b))
    · exact ih (max a x) b h

/-- The fold of `max` is below any common bound. -/
theorem foldl_max_le_of (xs : List Nat) :
    ∀ a c, a ≤ c → (∀ b ∈ xs, b ≤ c) → xs.foldl max a ≤ c := by
  induction xs with
  | nil => intro a c hac _; simpa using hac
  | cons x xs ih =>
    intro a c hac hall
    exact ih (max a x) c (max_le hac (hall x (List.mem_cons_self x xs)))
      fun b hb => hall b (List.mem_cons_of_mem x hb)

/-- The fold of `max` either equals its seed or is attained in the list. -/
theorem foldl_max_attain (xs : List Nat) :
    ∀ a, xs.foldl max a = a ∨ xs.foldl max a ∈ xs := by
  induction xs with
  | nil => intro a; exact .inl rfl
  | cons x xs ih =>
    intro a
    rw [List.foldl_cons]
    rcases ih (max a x) with h | h
    · rcases Nat.le_total a x with hax | hax
      · right
        rw [h, max_eq_right hax]
        exact List.mem_cons_self x xs
      · left
        rw [h, max_eq_left hax]
    · right
      exact List.mem_cons_of_mem x h

/-- The fold of `max` over a non-empty list with seed 0 is attained. -/
theorem foldl_max_mem_of_ne_nil (xs : List Nat) (hne : xs ≠ []) :
    xs.foldl max 0 ∈ xs := by
  rcases foldl_max_attain xs 0 with h | h
  · cases xs with
    | nil => exact absurd rfl hne
    | cons x xs' =>
      have hx := mem_le_foldl_max (x :: xs') 0 x (List.mem_cons_self x xs')
      rw [h] at hx
      have hx0 : x = 0 := Nat.le_zero.mp hx
      rw [h, ← hx0]
      exact List.mem_cons_self x xs'
  · exact h

/-- Tie characterization of the candidate query: with at least one parsed
node, an id is returned exactly when some node carries it whose height is
maximal among all nodes. -/
theorem get_user_last_tie_mem (nodes : List (String × Nat)) (i : String)
    (hne : nodes ≠ []) :
    i ∈ get_user_last_delegation_txid (some nodes) ↔
      ∃ p ∈ nodes, p.1 = i ∧ ∀ q ∈ nodes, q.2 ≤ p.2 := by
  have hM : (nodes.map Prod.snd).foldl max 0 ∈ nodes.map Prod.snd :=
    foldl_max_mem_of_ne_nil _ (by simpa using hne)
  obtain ⟨p0, hp0, hp0M⟩ := List.mem_map.mp hM
  have hids : p0 ∈ (nodes.filter
      fun n => n.2 = (nodes.map Prod.snd).foldl max 0) := by
    rw [List.mem_filter]
    exact ⟨hp0, by simp [hp0M]⟩
  simp only [get_user_last_delegation_txid]
  rw [if_neg (by simpa [List.isEmpty_iff] using hne)]
  rw [if_neg (by
    simp only [List.isEmpty_iff, List.map_eq_nil_iff, List.filter_eq_nil_iff]
    intro hcontr
    exact hcontr p0 hp0 (by simp [hp0M]))]
  rw [List.mem_map]
  constructor
  · rintro ⟨p, hpf, hpi⟩
    rw [List.mem_filter] at hpf
    obtain ⟨hpmem, hpM⟩ := hpf
    rw [decide_eq_true_eq] at hpM
    refine ⟨p, hpmem, hpi, fun q hq => ?_⟩
    rw [hpM]
    exact mem_le_foldl_max _ 0 q.2 (List.mem_map_of_mem Prod.snd hq)
  · rintro ⟨p, hpmem, hpi, hpmax⟩
    refine ⟨p, ?_, hpi⟩
    rw [List.mem_filter]
    refine ⟨hpmem, ?_⟩
    rw [decide_eq_true_eq]
    exact le_antisymm
      (mem_le_foldl_max _ 0 p.2 (List.mem_map_of_mem Prod.snd hpmem))
      (foldl_max_le_of _ 0 p.2 (Nat.zero_le _) fun b hb => by
        obtain ⟨q, hq, hqb⟩ := List.mem_map.mp hb
        rw [← hqb]
        exact hpmax q hq)

/-- Skipping a block of candidates that all parse below `MAX_FACTOR`: the
loop reaches the remaining candidates with some fallback. -/
theorem resolveCandidates_append_skip (address : String)
    (resolve : String → Except String DelegationsRes) :
    ∀ (ids1 rest : List String) (fb : Option DelegationsRes),
      (∀ j ∈ ids1, j ≠ INTERNAL_PI_PID ∧
        ∃ r, resolve j = .ok r ∧ effectiveTotalFactor r < MAX_FACTOR) →
      ∃ fb2, resolveCandidates address resolve (ids1 ++ rest) fb =
        resolveCandidates address resolve rest fb2 := by
  intro ids1
  induction ids1 with
  | nil =>
    intro rest fb _
    exact ⟨fb, rfl⟩
  | cons j ids1 ih =>
    intro rest fb hskip
    obtain ⟨hj, r, hr, hrlt⟩ := hskip j (List.mem_cons_self j ids1)
    have step : resolveCandidates address resolve ((j :: ids1) ++ rest) fb =
        resolveCandidates address resolve (ids1 ++ rest)
          (some { r with delegation_msg_id := some j }) := by
      simp only [List.cons_append, resolveCandidates]
      rw [if_neg hj]
      simp only [hr]
      rw [if_neg (Nat.not_le.mpr hrlt)]
      rfl
    rw [step]
    exact ih rest _ fun x hx => hskip x (List.mem_cons_of_mem j hx)

/-- The loop returns the first candidate whose effective total factor reaches
`MAX_FACTOR`, with its batch id recorded, when every earlier candidate parsed
below the threshold. -/
theorem resolveCandidates_hit (address : String)
    (resolve : String → Except String DelegationsRes)
    (ids1 ids2 : List String) (id : String) (fb : Option DelegationsRes)
    (r : DelegationsRes)
    (hskip : ∀ j ∈ ids1, j ≠ INTERNAL_PI_PID ∧
      ∃ r0, resolve j = .ok r0 ∧ effectiveTotalFactor r0 < MAX_FACTOR)
    (hid : id ≠ INTERNAL_PI_PID) (hok : resolve id = .ok r)
    (hge : MAX_FACTOR ≤ effectiveTotalFactor r) :
    resolveCandidates address resolve (ids1 ++ id :: ids2) fb =
      .ok { r with delegation_msg_id := some id } := by
  obtain ⟨fb2, hfb2⟩ :=
    resolveCandidates_append_skip address resolve ids1 (id :: ids2) fb hskip
  rw [hfb2]
  simp only [resolveCandidates]
  rw [if_neg hid]
  simp only [hok]
  rw [if_pos hge]

/-- The loop propagates a candidate's failure immediately when every earlier
candidate parsed below the threshold, whatever fallback had accumulated and
whatever candidates remain. -/
theorem resolveCandidates_error (address : String)
    (resolve : String → Except String DelegationsRes)
    (ids1 ids2 : List String) (id : String) (fb : Option DelegationsRes)
    (e : String)
    (hskip : ∀ j ∈ ids1, j ≠ INTERNAL_PI_PID ∧
      ∃ r0, resolve j = .ok r0 ∧ effectiveTotalFactor r0 < MAX_FACTOR)
    (hid : id ≠ INTERNAL_PI_PID) (herr : resolve id = .error e) :
    resolveCandidates address resolve (ids1 ++ id :: ids2) fb = .error e := by
  obtain ⟨fb2, hfb2⟩ :=
    resolveCandidates_append_skip address resolve ids1 (id :: ids2) fb hskip
  rw [hfb2]
  simp only [resolveCandidates]
  rw [if_neg hid]
  simp only [herr]

/-- When every candidate parses below the threshold, the loop returns the
last parsed candidate, with its batch id recorded. -/
theorem resolveCandidates_all_fallback (address : String)
    (resolve : String → Except String DelegationsRes) :
    ∀ (ids : List String) (fb : Option DelegationsRes) (lastId : String)
      (r : DelegationsRes),
      ids.getLast? = some lastId →
      (∀ j ∈ ids, j ≠ INTERNAL_PI_PID ∧
        ∃ r0, resolve j = .ok r0 ∧ effectiveTotalFactor r0 < MAX_FACTOR) →
      resolve lastId = .ok r →
      resolveCandidates address resolve ids fb =
        .ok { r with delegation_msg_id := some lastId } := by
  intro ids
  induction ids with
  | nil =>
    intro fb lastId r hlast _ _
    cases hlast
  | cons j ids ih =>
    intro fb lastId r hlast hall hres
    obtain ⟨hj, r0, hr0, hlt⟩ := hall j (List.mem_cons_self j ids)
    cases ids with
    | nil =>
      have hjl : lastId = j := by simpa using hlast.symm
      subst hjl
      have hrr : r0 = r := by
        rw [hres] at hr0
        simpa using hr0.symm
      subst hrr
      simp only [resolveCandidates]
      rw [if_neg hj]
      simp only [hres]
      rw [if_neg (Nat.not_le.mpr hlt)]
    | cons j2 ids2 =>
      have hlast2 : (j2 :: ids2).getLast? = some lastId := by
        simpa [List.getLast?_cons_cons] using hlast
      have step : resolveCandidates address resolve (j :: j2 :: ids2) fb =
          resolveCandidates address resolve (j2 :: ids2)
            (some { r0 with delegation_msg_id := some j }) := by
        simp only [resolveCandidates]
        rw [if_neg hj]
        simp only [hr0]
        rw [if_neg (Nat.not_le.mpr hlt)]
      rw [step]
      exact ih _ lastId r hlast2
        (fun x hx => hall x (List.mem_cons_of_mem j hx)) hres

/-- C3 counterexample.  The claim states an error is propagated only if every
candidate attempt fails.  With two candidates tied at height 7, where the
first parses successfully (total factor 100, below `MAX_FACTOR`) and the
second fails, the code returns the second candidate's error — the `?`
operators in wallet.rs lines 18-20 abort on the first failing attempt,
discarding the already-parsed fallback — even though not every attempt
failed. -/
theorem C3_counterexample :
    get_wallet_delegations "w"
        (.ok (some [("cand_a", 7), ("cand_b", 7)]))
        (fun id => if id = "cand_a" then
          .ok ⟨none, none, some 100, some "w", [], none⟩
          else .error "boom") =
      .error "boom" ∧
    (fun id => if id = "cand_a" then
        (.ok ⟨none, none, some 100, some "w", [], none⟩ :
          Except String DelegationsRes)
        else .error "boom") "cand_a" =
      .ok ⟨none, none, some 100, some "w", [], none⟩ :=
  ⟨rfl, rfl⟩

/-- C3 amended: delegation-preference resolution returns the synthetic
100 %-to-PI preference (one entry with factor `MAX_FACTOR`) when the wallet
has no `Set-Delegation` message; among the returned candidates it keeps
exactly those tied at the maximum block height; it returns the first
candidate whose effective total factor (the payload's `total_factor`, or the
sum of its preference factors when absent) reaches `MAX_FACTOR`; when every
candidate parses below the threshold it returns the last parsed candidate as
fallback; and it propagates an error as soon as any candidate attempt fails,
discarding any already-parsed fallback and the remaining candidates (not
only when every attempt fails). -/
theorem C3_amended (address i id lastId e : String)
    (resolve : String → Except String DelegationsRes)
    (nodes : List (String × Nat)) (ids1 ids2 idsAll : List String)
    (fb fbAll : Option DelegationsRes) (rHit rLast : DelegationsRes) :
    get_wallet_delegations address (.ok (some [])) resolve =
      .ok (DelegationsRes.pi_default address) ∧
    get_wallet_delegations address (.ok none) resolve =
      .ok (DelegationsRes.pi_default address) ∧
    (DelegationsRes.pi_default address).delegation_prefs =
      [⟨INTERNAL_PI_PID, MAX_FACTOR⟩] ∧
    (nodes ≠ [] →
      (i ∈ get_user_last_delegation_txid (some nodes) ↔
        ∃ p ∈ nodes, p.1 = i ∧ ∀ q ∈ nodes, q.2 ≤ p.2)) ∧
    ((∀ j ∈ ids1, j ≠ INTERNAL_PI_PID ∧
        ∃ r0, resolve j = .ok r0 ∧ effectiveTotalFactor r0 < MAX_FACTOR) →
      id ≠ INTERNAL_PI_PID →
      (resolve id = .ok rHit → MAX_FACTOR ≤ effectiveTotalFactor rHit →
        resolveCandidates address resolve (ids1 ++ id :: ids2) fb =
          .ok { rHit with delegation_msg_id := some id }) ∧
      (resolve id = .error e →
        resolveCandidates address resolve (ids1 ++ id :: ids2) fb =
          .error e)) ∧
    (idsAll.getLast? = some lastId →
      (∀ j ∈ idsAll, j ≠ INTERNAL_PI_PID ∧
        ∃ r0, resolve j = .ok r0 ∧ effectiveTotalFactor r0 < MAX_FACTOR) →
      resolve lastId = .ok rLast →
      resolveCandidates address resolve idsAll fbAll =
        .ok { rLast with delegation_msg_id := some lastId }) := by
  refine ⟨rfl, rfl, rfl, get_user_last_tie_mem nodes i, ?_, ?_⟩
  · intro hskip hid
    exact ⟨fun hok hge =>
        resolveCandidates_hit address resolve ids1 ids2 id fb rHit hskip hid
          hok hge,
      fun herr =>
        resolveCandidates_error address resolve ids1 ids2 id fb e hskip hid
          herr⟩
  · intro hlast hall hres
    exact resolveCandidates_all_fallback address resolve idsAll fbAll lastId
      rLast hlast hall hres

/-- A concrete candidate resolver for the C3 witness: `"a"` parses below the
threshold, `"hit"` reaches it, `"last"` parses below it, anything else
fails. -/
def c3Resolve (id : String) : Except String DelegationsRes :=
  if id = "a" then .ok ⟨none, none, some 100, some "wX", [], none⟩
  else if id = "hit" then .ok ⟨none, none, some 10000, some "wX", [], none⟩
  else if id = "last" then .ok ⟨none, none, some 200, some "wX", [], none⟩
  else .error "boom"

/-- C3 witness: the amended theorem exercised at concrete inputs — the PI
default for an empty candidate set, the height-tie characterization at two
nodes, the first candidate reaching `MAX_FACTOR` after one below-threshold
candidate, the immediate error on a failing candidate, and the last-parsed
fallback. -/
theorem C3_witness :
    get_wallet_delegations "wX" (.ok (some [])) c3Resolve =
      .ok (DelegationsRes.pi_default "wX") ∧
    ("b" ∈ get_user_last_delegation_txid (some [("a", 1), ("b", 2)]) ↔
      ∃ p ∈ [("a", 1), ("b", 2)], p.1 = "b" ∧
        ∀ q ∈ [("a", 1), ("b", 2)], q.2 ≤ p.2) ∧
    resolveCandidates "wX" c3Resolve (["a"] ++ "hit" :: ["z"]) none =
      .ok ⟨none, none, some 10000, some "wX", [], some "hit"⟩ ∧
    resolveCandidates "wX" c3Resolve (["a"] ++ "bad" :: ["z"]) none =
      .error "boom" ∧
    resolveCandidates "wX" c3Resolve ["a", "last"] none =
      .ok ⟨none, none, some 200, some "wX", [], some "last"⟩ := by
  have hskip1 : ∀ j ∈ ["a"], j ≠ INTERNAL_PI_PID ∧
      ∃ r0, c3Resolve j = .ok r0 ∧ effectiveTotalFactor r0 < MAX_FACTOR := by
    intro j hj
    rw [List.mem_singleton] at hj
    subst hj
    exact ⟨by decide, ⟨⟨none, none, some 100, some "wX", [], none⟩, rfl,
      by decide⟩⟩
  have hall : ∀ j ∈ ["a", "last"], j ≠ INTERNAL_PI_PID ∧
      ∃ r0, c3Resolve j = .ok r0 ∧ effectiveTotalFactor r0 < MAX_FACTOR := by
    intro j hj
    rcases List.mem_cons.mp hj with rfl | hj
    · exact ⟨by decide, ⟨⟨none, none, some 100, some "wX", [], none⟩, rfl,
        by decide⟩⟩
    · rw [List.mem_singleton] at hj
      subst hj
      exact ⟨by decide, ⟨⟨none, none, some 200, some "wX", [], none⟩, rfl,
        by decide⟩⟩
  have thmA := C3_amended "wX" "b" "hit" "last" "boom" c3Resolve
    [("a", 1), ("b", 2)] ["a"] ["z"] ["a", "last"] none none
    ⟨none, none, some 10000, some "wX", [], none⟩
    ⟨none, none, some 200, some "wX", [], none⟩
  have thmB := C3_amended "wX" "b" "bad" "last" "boom" c3Resolve
    [("a", 1), ("b", 2)] ["a"] ["z"] ["a", "last"] none none
    ⟨none, none, some 10000, some "wX", [], none⟩
    ⟨none, none, some 200, some "wX", [], none⟩
  refine ⟨thmA.1, thmA.2.2.2.1 (by decide), ?_, ?_, ?_⟩
  · exact (thmA.2.2.2.2.1 hskip1 (by decide)).1 rfl (by decide)
  · exact (thmB.2.2.2.2.1 hskip1 (by decide)).2 rfl
  · exact thmA.2.2.2.2.2 rfl hall rfl

end Atlas
